import Mathlib

/-!
# Verification of `read_em_122.py` (EM122-Data-Reader)

A shallow embedding of `read_em122_wgs84` from `src/read_em_122.py`.

Modelling choices:
* Timestamps, coordinates, depths and intensities are rationals (`ℚ`);
  the source uses Python/numpy floats, but every property at stake is
  about data flow and shape, not about rounding.
* The external collaborators (`pyall`'s timestamp utility, numpy's
  `degrees(arctan2 ...)` composite, and
  `geodetic.calculateGeographicalPositionFromBearingDxDy`) are abstract
  function parameters collected in `Prims`: the reader only pipes their
  results around, so every theorem is proved for all instantiations.
* The navigation interpolator `timeseries.ctimeSeries.getValueAt` is an
  external collaborator whose code is not in the repository; it is
  modelled from the spec (see `getValueAt`).
* Python exceptions are modelled explicitly: the streaming loop returns
  `none` when a datagram decode raises, and the run outcome records
  whether `r.close()` was executed on the path taken.
-/

/-- One navigation fix, an element of the list returned by
`r.loadnavigation()`: `[timestamp, latitude, longitude]`. -/
structure NavFix where
  ts : ℚ
  lat : ℚ
  lon : ℚ
  deriving DecidableEq, Repr

/-- The fields of a decoded `X` (XYZ 88 depth) datagram that
`read_em122_wgs84` reads: record date and time-of-day (combined into a
timestamp by the external utility), heading, and the per-beam arrays. -/
structure XDatagram where
  recorddate : ℚ
  time : ℚ
  heading : ℚ
  acrosstrackdistance : List ℚ
  alongtrackdistance : List ℚ
  depth : List ℚ
  reflectivity : List ℚ
  deriving DecidableEq, Repr

/-- One record yielded by `r.readdatagram()` inside the `while r.moredata()`
loop. `corruptDatagram` models a record whose decode (`r.readdatagram()` or
`datagram.read()`) raises an exception, which the source does not catch. -/
inductive Record where
  | xDatagram (d : XDatagram)
  | otherDatagram
  | corruptDatagram
  deriving DecidableEq, Repr

/-- The external primitives the reader calls but does not implement:
`to_timestamp(to_datetime(recorddate, time))`, the composite
`np.degrees(np.arctan2 dx z)` applied elementwise, and
`geodetic.calculateGeographicalPositionFromBearingDxDy`, which returns
`(lon, lat)`. -/
structure Prims where
  toTimestamp : ℚ → ℚ → ℚ
  atan2degrees : ℚ → ℚ → ℚ
  geodCalc : ℚ → ℚ → ℚ → ℚ → ℚ → ℚ × ℚ

/-- Helper for `getValueAt`: walk the fixes keeping the previous one. -/
def getValueAtAux (prev : ℚ × ℚ) : List (ℚ × ℚ) → ℚ → Option ℚ
  | [], t => if t = prev.1 then some prev.2 else none
  | q :: qs, t =>
      if t ≤ q.1 then
        if t = prev.1 then some prev.2
        else if t = q.1 then some q.2
        else some (prev.2 + (q.2 - prev.2) * (t - prev.1) / (q.1 - prev.1))
      else getValueAtAux q qs t

/-- Modelled from the spec: the `timeseries` collaborator's
`Interpolator.evaluate(t)` (`ctimeSeries.getValueAt` in the source).
The spec (§4.1, §6) requires: "no value" outside `[min ts, max ts]` of the
loaded timestamps, the exact stored value when `t` equals a fix timestamp,
and linear interpolation between the two bracketing fixes otherwise
(fixes assumed timestamp-sorted ascending). -/
def getValueAt (pts : List (ℚ × ℚ)) (t : ℚ) : Option ℚ :=
  match pts with
  | [] => none
  | p :: ps => if t < p.1 then none else getValueAtAux p ps t

/-- The time/latitude point list `ctimeSeries(nav_arr[:, 0], nav_arr[:, 1])`
is built from. -/
def latSeries (nav : List NavFix) : List (ℚ × ℚ) :=
  nav.map fun f => (f.ts, f.lat)

/-- The time/longitude point list `ctimeSeries(nav_arr[:, 0], nav_arr[:, 2])`
is built from. -/
def lonSeries (nav : List NavFix) : List (ℚ × ℚ) :=
  nav.map fun f => (f.ts, f.lon)

/-- The per-ping data collected at step 7 of the loop body for one
successfully processed ping: the five arrays appended to
`list_lat/list_lon/list_z/list_bs/list_ang`, plus the metadata
`len(p_z)` and `ts` appended to `list_beam_counts`/`list_ping_times`. -/
structure Batch where
  lat : List ℚ
  lon : List ℚ
  z : List ℚ
  bs : List ℚ
  ang : List ℚ
  count : ℕ
  ts : ℚ
  deriving DecidableEq, Repr

/-- The body of the `if typeofdatagram == 'X'` branch: resolve the
timestamp, interpolate the reference position (skip the ping when either
interpolant yields no value), compute beam angles, and convert each beam
to absolute coordinates. Returns `none` when the ping is skipped. -/
def processX (P : Prims) (nav : List NavFix) (d : XDatagram) : Option Batch :=
  let ts := P.toTimestamp d.recorddate d.time
  match getValueAt (latSeries nav) ts, getValueAt (lonSeries nav) ts with
  | some refLat, some refLon =>
      let p_ang := (d.acrosstrackdistance.zip d.depth).map fun p =>
        P.atan2degrees p.1 p.2
      let coords := (List.range d.depth.length).map fun i =>
        P.geodCalc refLon refLat d.heading
          (d.acrosstrackdistance.getD i 0) (d.alongtrackdistance.getD i 0)
      some { lat := coords.map Prod.snd
             lon := coords.map Prod.fst
             z := d.depth
             bs := d.reflectivity
             ang := p_ang
             count := d.depth.length
             ts := ts }
  | _, _ => none

/-- The `while r.moredata()` loop: returns the collected per-ping batches in
arrival order together with `ping_count` (which counts every `X` datagram,
also the skipped ones), or `none` when a datagram decode raises — the
source has no handler, so the exception propagates out of the loop. -/
def streamLoop (P : Prims) (nav : List NavFix) : List Record → Option (List Batch × ℕ)
  | [] => some ([], 0)
  | Record.corruptDatagram :: _ => none
  | Record.otherDatagram :: rs => streamLoop P nav rs
  | Record.xDatagram d :: rs =>
      match streamLoop P nav rs with
      | none => none
      | some (bs, n) =>
          match processX P nav d with
          | some b => some (b :: bs, n + 1)
          | none => some (bs, n + 1)

/-- The dictionary returned by `read_em122_wgs84` on success. -/
structure SoundingDataset where
  lat : List ℚ
  lon : List ℚ
  z : List ℚ
  bs : List ℚ
  ang : List ℚ
  ping_counts : List ℕ
  ping_starts : List ℕ
  ping_times : List ℚ
  deriving DecidableEq, Repr

/-- Inclusive running sums, `np.cumsum`. -/
def cumsum : List ℕ → List ℕ
  | [] => []
  | x :: xs => x :: (cumsum xs).map (x + ·)

/-- `np.concatenate(([0], np.cumsum(final_beam_counts)[:-1]))`. -/
def pingStarts (counts : List ℕ) : List ℕ :=
  0 :: (cumsum counts).dropLast

/-- The flattening and indexing steps (third and fourth steps of the
source): concatenate the per-ping arrays and build the ping index. -/
def finalize (batches : List Batch) : SoundingDataset :=
  { lat := (batches.map Batch.lat).flatten
    lon := (batches.map Batch.lon).flatten
    z := (batches.map Batch.z).flatten
    bs := (batches.map Batch.bs).flatten
    ang := (batches.map Batch.ang).flatten
    ping_counts := batches.map Batch.count
    ping_starts := pingStarts (batches.map Batch.count)
    ping_times := batches.map Batch.ts }

/-- How one run of `read_em122_wgs84` ends. `emptyNavigation` and
`noValidData` are the two `return None` failure paths with their distinct
diagnostic messages; `raisedValueError` is the uncaught `ValueError` that
`np.concatenate` raises on an empty list of arrays; `raisedReadError` is an
uncaught exception propagating from a datagram decode inside the loop. -/
inductive RunResult where
  | dataset (ds : SoundingDataset)
  | emptyNavigation
  | noValidData
  | raisedValueError
  | raisedReadError
  deriving DecidableEq, Repr

/-- The observable outcome of a run: its result and whether `r.close()`
was executed on the path taken. -/
structure RunOutcome where
  result : RunResult
  readerClosed : Bool
  deriving DecidableEq, Repr

/-- `read_em122_wgs84`, from the point where the reader handle has been
opened: load navigation (returning `None` after closing when it is empty),
stream the depth datagrams, close the reader, apply the
`ping_count == 0` check, then flatten and index.  `nav` is the list
`loadnavigation()` returns and `recs` the sequence of records the rewound
reader yields. -/
def read_em122_wgs84 (P : Prims) (nav : List NavFix) (recs : List Record) :
    RunOutcome :=
  if nav.isEmpty then
    { result := RunResult.emptyNavigation, readerClosed := true }
  else
    match streamLoop P nav recs with
    | none => { result := RunResult.raisedReadError, readerClosed := false }
    | some (batches, pingCount) =>
        if pingCount = 0 then
          { result := RunResult.noValidData, readerClosed := true }
        else if batches.isEmpty then
          { result := RunResult.raisedValueError, readerClosed := true }
        else
          { result := RunResult.dataset (finalize batches), readerClosed := true }

/-- A concrete instantiation of the external primitives, for evaluating
the model on explicit inputs: the timestamp is the record date field, the
angle is the across-track offset, and the projected point is `(dx, dy)`. -/
def testPrims : Prims where
  toTimestamp a _ := a
  atan2degrees a _ := a
  geodCalc _ _ _ dx dy := (dx, dy)

/-! ## Helper lemmas about the index construction -/

theorem cumsum_length (l : List ℕ) : (cumsum l).length = l.length := by
  induction l with
  | nil => rfl
  | cons x xs ih => simp [cumsum, ih]

theorem cumsum_getD (l : List ℕ) (i : ℕ) (hi : i < l.length) :
    (cumsum l).getD i 0 = (l.take (i + 1)).sum := by
  induction l generalizing i with
  | nil => simp at hi
  | cons x xs ih =>
    cases i with
    | zero => simp [cumsum]
    | succ i =>
      have hi' : i < xs.length := by simpa using hi
      have hb : i < ((cumsum xs).map (x + ·)).length := by
        simpa [cumsum_length] using hi'
      have hb' : i < (cumsum xs).length := by simpa [cumsum_length] using hi'
      simp only [cumsum, List.getD_cons_succ]
      rw [List.getD_eq_getElem _ 0 hb, List.getElem_map,
        ← List.getD_eq_getElem _ 0 hb', ih i hi']
      simp [List.take_succ_cons]

theorem pingStarts_length (counts : List ℕ) (h : counts ≠ []) :
    (pingStarts counts).length = counts.length := by
  have hpos : 0 < counts.length := List.length_pos.mpr h
  simp only [pingStarts, List.length_cons, List.length_dropLast, cumsum_length]
  omega

theorem pingStarts_getD (counts : List ℕ) (k : ℕ) (hk : k < counts.length) :
    (pingStarts counts).getD k 0 = (counts.take k).sum := by
  cases k with
  | zero => simp [pingStarts]
  | succ k =>
    have hd : k < (cumsum counts).dropLast.length := by
      simp only [List.length_dropLast, cumsum_length]; omega
    have hc : k < (cumsum counts).length := by
      simp only [cumsum_length]; omega
    simp only [pingStarts, List.getD_cons_succ]
    rw [List.getD_eq_getElem _ 0 hd, List.getElem_dropLast,
      ← List.getD_eq_getElem _ 0 hc, cumsum_getD counts k (by omega)]

theorem flatten_getD (L : List (List ℚ)) (k : ℕ) (hk : k < L.length) (i : ℕ)
    (hi : i < L[k].length) (d : ℚ) :
    L.flatten.getD (((L.map List.length).take k).sum + i) d = L[k].getD i d := by
  induction L generalizing k with
  | nil => simp at hk
  | cons x xs ih =>
    cases k with
    | zero =>
      simp only [List.map_cons, List.take_zero, List.sum_nil, Nat.zero_add,
        List.flatten_cons]
      exact List.getD_append _ _ _ _ (by simpa using hi)
    | succ k =>
      have hk' : k < xs.length := by simpa using hk
      have hi' : i < xs[k].length := by simpa using hi
      simp only [List.map_cons, List.take_succ_cons, List.sum_cons,
        List.flatten_cons, List.getElem_cons_succ]
      rw [Nat.add_assoc,
        List.getD_append_right _ _ _ _ (Nat.le_add_right _ _),
        Nat.add_sub_cancel_left]
      exact ih k hk' hi'

/-! ## Helper lemmas about the run and the loop -/

theorem run_dataset_inv (P : Prims) (nav : List NavFix) (recs : List Record)
    (ds : SoundingDataset)
    (h : (read_em122_wgs84 P nav recs).result = RunResult.dataset ds) :
    ∃ batches n, streamLoop P nav recs = some (batches, n) ∧ batches ≠ [] ∧
      n ≠ 0 ∧ ds = finalize batches := by
  unfold read_em122_wgs84 at h
  split at h
  · simp at h
  · cases hs : streamLoop P nav recs with
    | none => rw [hs] at h; simp at h
    | some r =>
      obtain ⟨batches, n⟩ := r
      rw [hs] at h
      by_cases hn : n = 0
      · simp [hn] at h
      · by_cases hb : batches.isEmpty
        · simp [hn, hb] at h
        · simp only [hn, hb, if_false, Bool.false_eq_true] at h
          exact ⟨batches, n, rfl, by simpa using hb, hn,
            (RunResult.dataset.injEq _ _ ▸ h).symm⟩

theorem mem_batches_source (P : Prims) (nav : List NavFix) (recs : List Record)
    (batches : List Batch) (n : ℕ)
    (h : streamLoop P nav recs = some (batches, n)) :
    ∀ b ∈ batches, ∃ d, Record.xDatagram d ∈ recs ∧ processX P nav d = some b := by
  induction recs generalizing batches n with
  | nil =>
    simp only [streamLoop, Option.some.injEq, Prod.mk.injEq] at h
    rw [← h.1]
    intro b hb
    simp at hb
  | cons r rs ih =>
    cases r with
    | corruptDatagram => simp [streamLoop] at h
    | otherDatagram =>
      intro b hb
      obtain ⟨d, hd, hp⟩ := ih batches n (by simpa [streamLoop] using h) b hb
      exact ⟨d, List.mem_cons_of_mem _ hd, hp⟩
    | xDatagram d =>
      simp only [streamLoop] at h
      cases hs : streamLoop P nav rs with
      | none => rw [hs] at h; simp at h
      | some r' =>
        obtain ⟨bs', n'⟩ := r'
        rw [hs] at h
        cases hp : processX P nav d with
        | none =>
          rw [hp] at h
          simp only [Option.some.injEq, Prod.mk.injEq] at h
          intro b hb
          rw [← h.1] at hb
          obtain ⟨d', hd', hp'⟩ := ih bs' n' hs b hb
          exact ⟨d', List.mem_cons_of_mem _ hd', hp'⟩
        | some b0 =>
          rw [hp] at h
          simp only [Option.some.injEq, Prod.mk.injEq] at h
          intro b hb
          rw [← h.1] at hb
          rcases List.mem_cons.mp hb with hb | hb
          · exact ⟨d, List.mem_cons_self _ _, hb ▸ hp⟩
          · obtain ⟨d', hd', hp'⟩ := ih bs' n' hs b hb
            exact ⟨d', List.mem_cons_of_mem _ hd', hp'⟩

theorem processX_some_spec (P : Prims) (nav : List NavFix) (d : XDatagram)
    (b : Batch) (h : processX P nav d = some b) :
    ∃ rlat rlon,
      getValueAt (latSeries nav) (P.toTimestamp d.recorddate d.time) = some rlat ∧
      getValueAt (lonSeries nav) (P.toTimestamp d.recorddate d.time) = some rlon ∧
      b.lat = ((List.range d.depth.length).map fun i =>
        P.geodCalc rlon rlat d.heading (d.acrosstrackdistance.getD i 0)
          (d.alongtrackdistance.getD i 0)).map Prod.snd ∧
      b.lon = ((List.range d.depth.length).map fun i =>
        P.geodCalc rlon rlat d.heading (d.acrosstrackdistance.getD i 0)
          (d.alongtrackdistance.getD i 0)).map Prod.fst ∧
      b.z = d.depth ∧
      b.bs = d.reflectivity ∧
      b.ang = (d.acrosstrackdistance.zip d.depth).map
        (fun p => P.atan2degrees p.1 p.2) ∧
      b.count = d.depth.length ∧
      b.ts = P.toTimestamp d.recorddate d.time := by
  simp only [processX] at h
  cases hlat : getValueAt (latSeries nav) (P.toTimestamp d.recorddate d.time) with
  | none => rw [hlat] at h; simp at h
  | some rlat =>
    cases hlon : getValueAt (lonSeries nav) (P.toTimestamp d.recorddate d.time) with
    | none => rw [hlat, hlon] at h; simp at h
    | some rlon =>
      rw [hlat, hlon] at h
      simp only [Option.some.injEq] at h
      refine ⟨rlat, rlon, rfl, rfl, ?_, ?_, ?_, ?_, ?_, ?_, ?_⟩ <;>
        simp [← h, List.map_map]

theorem processX_none_iff (P : Prims) (nav : List NavFix) (d : XDatagram) :
    processX P nav d = none ↔
      (getValueAt (latSeries nav) (P.toTimestamp d.recorddate d.time) = none ∨
       getValueAt (lonSeries nav) (P.toTimestamp d.recorddate d.time) = none) := by
  simp only [processX]
  cases hlat : getValueAt (latSeries nav) (P.toTimestamp d.recorddate d.time) with
  | none => simp [hlat]
  | some rlat =>
    cases hlon : getValueAt (lonSeries nav) (P.toTimestamp d.recorddate d.time) with
    | none => simp [hlat, hlon]
    | some rlon => simp [hlat, hlon]

theorem processX_some_lengths (P : Prims) (nav : List NavFix) (d : XDatagram)
    (b : Batch) (h : processX P nav d = some b)
    (ha : d.acrosstrackdistance.length = d.depth.length)
    (hr : d.reflectivity.length = d.depth.length) :
    b.lat.length = b.count ∧ b.lon.length = b.count ∧ b.z.length = b.count ∧
      b.bs.length = b.count ∧ b.ang.length = b.count := by
  obtain ⟨rlat, rlon, -, -, hblat, hblon, hbz, hbbs, hbang, hbcount, -⟩ :=
    processX_some_spec P nav d b h
  refine ⟨?_, ?_, ?_, ?_, ?_⟩ <;>
    simp [hblat, hblon, hbz, hbbs, hbang, hbcount, ha, hr]

/-! ## Claim theorems -/

/-- Claim C9: when navigation yields zero position fixes, the run fails
fatally on the `EmptyNavigationError` path (`return None` after the
"no navigation data" diagnostic): no dataset is produced, the streaming
loop is never entered so no depth record is processed and no flattened
array is built, and the reader is closed before returning. -/
theorem C9_empty_navigation (P : Prims) (recs : List Record) :
    read_em122_wgs84 P [] recs =
      { result := RunResult.emptyNavigation, readerClosed := true } := rfl

/-- Claim C8, amended: the reader handle is released on the
empty-navigation early exit and on every exit reached after the streaming
loop completes (successful dataset, the zero-ping failure, and the
finalization `ValueError`, which is raised after `r.close()`), but *not*
on an abnormal exit raised inside the streaming loop: the handle is
closed exactly when navigation was empty or the loop ran to completion. -/
theorem C8_reader_closed (P : Prims) (nav : List NavFix) (recs : List Record) :
    (read_em122_wgs84 P nav recs).readerClosed =
      (nav.isEmpty || (streamLoop P nav recs).isSome) := by
  unfold read_em122_wgs84
  cases hn : nav.isEmpty with
  | true => simp
  | false =>
    cases hs : streamLoop P nav recs with
    | none => simp
    | some r =>
      obtain ⟨batches, n⟩ := r
      by_cases h0 : n = 0
      · simp [h0]
      · by_cases hb : batches.isEmpty <;> simp [h0, hb]

/-- Claim C8, counterexample: with navigation present and a datagram whose
decode raises, the exception propagates out of the streaming loop before
`r.close()` is reached, so the run exits abnormally with the reader handle
still open — refuting the claim that `close` is called on every abnormal
exit. -/
theorem C8_counterexample :
    read_em122_wgs84 testPrims [⟨0, 1, 2⟩] [Record.corruptDatagram]
      = { result := RunResult.raisedReadError, readerClosed := false } := by
  decide

/-- Claim C10: whenever `read_em122_wgs84` returns a dataset, its ping index
is non-empty: `ping_counts`, `ping_starts` and `ping_times` all have at
least one entry, so a consumer never observes an empty PingIndex. -/
theorem C10_dataset_nonempty_index (P : Prims) (nav : List NavFix)
    (recs : List Record) (ds : SoundingDataset)
    (h : (read_em122_wgs84 P nav recs).result = RunResult.dataset ds) :
    0 < ds.ping_counts.length ∧ 0 < ds.ping_starts.length ∧
      0 < ds.ping_times.length := by
  obtain ⟨batches, n, hs, hne, hn0, hds⟩ := run_dataset_inv P nav recs ds h
  subst hds
  refine ⟨?_, ?_, ?_⟩ <;> simp [finalize, pingStarts, List.length_pos, hne]

/-- Claim C10, witness: a concrete run that returns a dataset, whose three
index arrays indeed have positive length. -/
theorem C10_witness :
    0 < (finalize [⟨[4], [3], [5], [6], [3], 1, 0⟩]).ping_counts.length ∧
    0 < (finalize [⟨[4], [3], [5], [6], [3], 1, 0⟩]).ping_starts.length ∧
    0 < (finalize [⟨[4], [3], [5], [6], [3], 1, 0⟩]).ping_times.length :=
  C10_dataset_nonempty_index testPrims [⟨0, 1, 2⟩]
    [Record.xDatagram ⟨0, 0, 7, [3], [4], [5], [6]⟩] _ (by decide)

/-- Claim C1: evaluation at the failing input. Navigation has one fix at
t = 100 and the file has one depth record resolving to t = 0, outside the
navigation domain, so zero pings are successfully processed; the claim
(and the spec) expect the fatal `NoValidDataError` outcome with an empty
PingIndex, but because `ping_count` was incremented before the skip check
it is 1, the `ping_count == 0` guard is bypassed, and the run instead dies
in the uncaught `ValueError` that `np.concatenate` raises on the empty
batch list — a different failure than the claim states. -/
theorem C1_all_pings_skipped_crashes :
    read_em122_wgs84 testPrims [⟨100, 1, 2⟩]
        [Record.xDatagram ⟨0, 0, 0, [3], [4], [5], [6]⟩]
      = { result := RunResult.raisedValueError, readerClosed := true } ∧
    RunResult.raisedValueError ≠ RunResult.noValidData := by
  exact ⟨by decide, by decide⟩

/-- Claim C3, counterexample: a decoded depth datagram with an empty beam
list whose timestamp resolves inside the navigation domain is *not*
omitted from the index: the run returns a dataset whose `ping_counts`
is `[0, 1]` — its first entry is a ping that contributed zero beams, so
not every entry of `beam_count_per_ping` is strictly positive. -/
theorem C3_counterexample :
    (read_em122_wgs84 testPrims [⟨0, 1, 2⟩]
        [Record.xDatagram ⟨0, 0, 0, [], [], [], []⟩,
         Record.xDatagram ⟨0, 0, 7, [3], [4], [5], [6]⟩]).result
      = RunResult.dataset
          { lat := [4], lon := [3], z := [5], bs := [6], ang := [3],
            ping_counts := [0, 1], ping_starts := [0, 0],
            ping_times := [0, 0] }
    ∧ ¬(∀ c ∈ ([0, 1] : List ℕ), 0 < c) := by
  exact ⟨by decide, by decide⟩

/-- Claim C3, amended: every entry of `beam_count_per_ping` (and likewise
every `ping_start_offset`/`ping_timestamp` slot, which finalization builds
from the same batch list) belongs to a depth datagram of the file whose
interpolation succeeded — pings skipped for navigation gaps never appear —
and equals that datagram's decoded beam count `len(p_z)`, which may be 0:
a non-skipped datagram with an empty beam list is still listed. -/
theorem C3_amended_counts_from_processed (P : Prims) (nav : List NavFix)
    (recs : List Record) (ds : SoundingDataset)
    (h : (read_em122_wgs84 P nav recs).result = RunResult.dataset ds) :
    ∀ c ∈ ds.ping_counts, ∃ d, Record.xDatagram d ∈ recs ∧
      (processX P nav d).isSome ∧ c = d.depth.length := by
  obtain ⟨batches, n, hs, hne, hn0, hds⟩ := run_dataset_inv P nav recs ds h
  subst hds
  intro c hc
  simp only [finalize, List.mem_map] at hc
  obtain ⟨b, hb, hbc⟩ := hc
  obtain ⟨d, hd, hp⟩ := mem_batches_source P nav recs batches n hs b hb
  obtain ⟨-, -, -, -, -, -, -, -, -, hcount, -⟩ := processX_some_spec P nav d b hp
  exact ⟨d, hd, by simp [hp], by rw [← hbc, hcount]⟩

/-- Claim C3, witness for the amended statement, evaluated on a concrete
run containing one zero-beam ping and one one-beam ping, at the zero
entry of its `ping_counts`. -/
theorem C3_amended_witness :
    ∃ d, Record.xDatagram d ∈
        [Record.xDatagram ⟨0, 0, 0, [], [], [], []⟩,
         Record.xDatagram ⟨0, 0, 7, [3], [4], [5], [6]⟩] ∧
      (processX testPrims [⟨0, 1, 2⟩] d).isSome ∧ 0 = d.depth.length :=
  C3_amended_counts_from_processed testPrims [⟨0, 1, 2⟩]
    [Record.xDatagram ⟨0, 0, 0, [], [], [], []⟩,
     Record.xDatagram ⟨0, 0, 7, [3], [4], [5], [6]⟩]
    { lat := [4], lon := [3], z := [5], bs := [6], ang := [3],
      ping_counts := [0, 1], ping_starts := [0, 0], ping_times := [0, 0] }
    (by decide) 0 (by decide)

/-- Claim C2: under the per-datagram equal-length precondition, every
returned dataset satisfies the shape invariants: the five flattened
arrays all have length `sum(ping_counts)`; `ping_counts`, `ping_starts`
and `ping_times` have the same number of entries; `ping_starts` begins
with 0; and each next start is the previous start plus the previous beam
count (the exclusive running sum of beam counts). -/
theorem C2_dataset_shape (P : Prims) (nav : List NavFix) (recs : List Record)
    (hlen : ∀ d : XDatagram, Record.xDatagram d ∈ recs →
      d.acrosstrackdistance.length = d.depth.length ∧
      d.alongtrackdistance.length = d.depth.length ∧
      d.reflectivity.length = d.depth.length)
    (ds : SoundingDataset)
    (h : (read_em122_wgs84 P nav recs).result = RunResult.dataset ds) :
    (ds.lat.length = ds.ping_counts.sum ∧ ds.lon.length = ds.ping_counts.sum ∧
     ds.z.length = ds.ping_counts.sum ∧ ds.bs.length = ds.ping_counts.sum ∧
     ds.ang.length = ds.ping_counts.sum) ∧
    (ds.ping_starts.length = ds.ping_counts.length ∧
     ds.ping_times.length = ds.ping_counts.length) ∧
    ds.ping_starts.getD 0 1 = 0 ∧
    (∀ k, k + 1 < ds.ping_counts.length →
      ds.ping_starts.getD (k + 1) 0 =
        ds.ping_starts.getD k 0 + ds.ping_counts.getD k 0) := by
  obtain ⟨batches, n, hs, hne, hn0, hds⟩ := run_dataset_inv P nav recs ds h
  subst hds
  have hlens : ∀ b ∈ batches, b.lat.length = b.count ∧ b.lon.length = b.count ∧
      b.z.length = b.count ∧ b.bs.length = b.count ∧ b.ang.length = b.count := by
    intro b hb
    obtain ⟨d, hd, hp⟩ := mem_batches_source P nav recs batches n hs b hb
    exact processX_some_lengths P nav d b hp (hlen d hd).1 (hlen d hd).2.2
  have hflat : ∀ f : Batch → List ℚ, (∀ b ∈ batches, (f b).length = b.count) →
      ((batches.map f).flatten).length = (batches.map Batch.count).sum := by
    intro f hf
    rw [List.length_flatten, List.map_map]
    exact congrArg List.sum (List.map_congr_left fun b hb => hf b hb)
  have hcne : batches.map Batch.count ≠ [] := by simpa using hne
  refine ⟨⟨?_, ?_, ?_, ?_, ?_⟩, ⟨?_, ?_⟩, ?_, ?_⟩
  · exact hflat Batch.lat fun b hb => (hlens b hb).1
  · exact hflat Batch.lon fun b hb => (hlens b hb).2.1
  · exact hflat Batch.z fun b hb => (hlens b hb).2.2.1
  · exact hflat Batch.bs fun b hb => (hlens b hb).2.2.2.1
  · exact hflat Batch.ang fun b hb => (hlens b hb).2.2.2.2
  · simpa [finalize] using pingStarts_length (batches.map Batch.count) hcne
  · simp [finalize]
  · simp [finalize, pingStarts]
  · intro k hk
    have hk' : k + 1 < (batches.map Batch.count).length := by
      simpa [finalize] using hk
    have hkk : k < (batches.map Batch.count).length := by omega
    show (pingStarts (batches.map Batch.count)).getD (k + 1) 0 =
      (pingStarts (batches.map Batch.count)).getD k 0 +
        (batches.map Batch.count).getD k 0
    rw [pingStarts_getD _ _ hk', pingStarts_getD _ _ hkk,
      List.sum_take_succ _ _ hkk, List.getD_eq_getElem _ _ hkk]

/-- Claim C2, witness: the shape invariants evaluated on a concrete run
with two processed pings of 1 and 2 beams. -/
theorem C2_witness :
    ((finalize [⟨[4], [3], [5], [6], [3], 1, 0⟩,
        ⟨[40, 41], [30, 31], [50, 51], [60, 61], [30, 31], 2, 0⟩]).lat.length
        = (finalize [⟨[4], [3], [5], [6], [3], 1, 0⟩,
            ⟨[40, 41], [30, 31], [50, 51], [60, 61], [30, 31], 2, 0⟩]).ping_counts.sum ∧
     (finalize [⟨[4], [3], [5], [6], [3], 1, 0⟩,
        ⟨[40, 41], [30, 31], [50, 51], [60, 61], [30, 31], 2, 0⟩]).lon.length
        = (finalize [⟨[4], [3], [5], [6], [3], 1, 0⟩,
            ⟨[40, 41], [30, 31], [50, 51], [60, 61], [30, 31], 2, 0⟩]).ping_counts.sum ∧
     (finalize [⟨[4], [3], [5], [6], [3], 1, 0⟩,
        ⟨[40, 41], [30, 31], [50, 51], [60, 61], [30, 31], 2, 0⟩]).z.length
        = (finalize [⟨[4], [3], [5], [6], [3], 1, 0⟩,
            ⟨[40, 41], [30, 31], [50, 51], [60, 61], [30, 31], 2, 0⟩]).ping_counts.sum ∧
     (finalize [⟨[4], [3], [5], [6], [3], 1, 0⟩,
        ⟨[40, 41], [30, 31], [50, 51], [60, 61], [30, 31], 2, 0⟩]).bs.length
        = (finalize [⟨[4], [3], [5], [6], [3], 1, 0⟩,
            ⟨[40, 41], [30, 31], [50, 51], [60, 61], [30, 31], 2, 0⟩]).ping_counts.sum ∧
     (finalize [⟨[4], [3], [5], [6], [3], 1, 0⟩,
        ⟨[40, 41], [30, 31], [50, 51], [60, 61], [30, 31], 2, 0⟩]).ang.length
        = (finalize [⟨[4], [3], [5], [6], [3], 1, 0⟩,
            ⟨[40, 41], [30, 31], [50, 51], [60, 61], [30, 31], 2, 0⟩]).ping_counts.sum) ∧
    ((finalize [⟨[4], [3], [5], [6], [3], 1, 0⟩,
        ⟨[40, 41], [30, 31], [50, 51], [60, 61], [30, 31], 2, 0⟩]).ping_starts.length
        = (finalize [⟨[4], [3], [5], [6], [3], 1, 0⟩,
            ⟨[40, 41], [30, 31], [50, 51], [60, 61], [30, 31], 2, 0⟩]).ping_counts.length ∧
     (finalize [⟨[4], [3], [5], [6], [3], 1, 0⟩,
        ⟨[40, 41], [30, 31], [50, 51], [60, 61], [30, 31], 2, 0⟩]).ping_times.length
        = (finalize [⟨[4], [3], [5], [6], [3], 1, 0⟩,
            ⟨[40, 41], [30, 31], [50, 51], [60, 61], [30, 31], 2, 0⟩]).ping_counts.length) ∧
    (finalize [⟨[4], [3], [5], [6], [3], 1, 0⟩,
        ⟨[40, 41], [30, 31], [50, 51], [60, 61], [30, 31], 2, 0⟩]).ping_starts.getD 0 1 = 0 ∧
    (∀ k, k + 1 < (finalize [⟨[4], [3], [5], [6], [3], 1, 0⟩,
        ⟨[40, 41], [30, 31], [50, 51], [60, 61], [30, 31], 2, 0⟩]).ping_counts.length →
      (finalize [⟨[4], [3], [5], [6], [3], 1, 0⟩,
          ⟨[40, 41], [30, 31], [50, 51], [60, 61], [30, 31], 2, 0⟩]).ping_starts.getD (k + 1) 0 =
        (finalize [⟨[4], [3], [5], [6], [3], 1, 0⟩,
            ⟨[40, 41], [30, 31], [50, 51], [60, 61], [30, 31], 2, 0⟩]).ping_starts.getD k 0 +
          (finalize [⟨[4], [3], [5], [6], [3], 1, 0⟩,
              ⟨[40, 41], [30, 31], [50, 51], [60, 61], [30, 31], 2, 0⟩]).ping_counts.getD k 0) :=
  C2_dataset_shape testPrims [⟨0, 1, 2⟩]
    [Record.xDatagram ⟨0, 0, 7, [3], [4], [5], [6]⟩,
     Record.xDatagram ⟨0, 0, 8, [30, 31], [40, 41], [50, 51], [60, 61]⟩]
    (by
      intro d hd
      simp only [List.mem_cons, List.not_mem_nil, or_false,
        Record.xDatagram.injEq] at hd
      rcases hd with rfl | rfl <;> exact ⟨by decide, by decide, by decide⟩)
    _ (by decide)

/-- Claim C4: a depth datagram whose resolved transmit timestamp yields
"no value" from either navigation interpolant is skipped wholesale:
the streaming loop over the file with that record returns exactly the
batches of the same file without it (so the ping contributes zero beams
to every flattened array), no exception is raised by the skip itself
(the loop result is an error for one file iff it is for the other), the
following records are processed unchanged, and only `ping_count` still
counts the skipped ping; consequently any dataset such a run returns
draws its `ping_times` and `ping_counts` entries only from the other
records, so the skipped ping's timestamp contributes no entry. -/
theorem C4_nav_gap_skips_ping (P : Prims) (nav : List NavFix)
    (pre post : List Record) (d : XDatagram)
    (hgap : getValueAt (latSeries nav) (P.toTimestamp d.recorddate d.time) = none ∨
            getValueAt (lonSeries nav) (P.toTimestamp d.recorddate d.time) = none) :
    streamLoop P nav (pre ++ Record.xDatagram d :: post)
      = Option.map (fun r => (r.1, r.2 + 1)) (streamLoop P nav (pre ++ post)) ∧
    ∀ ds, (read_em122_wgs84 P nav (pre ++ Record.xDatagram d :: post)).result
        = RunResult.dataset ds →
      ∃ batches n, streamLoop P nav (pre ++ post) = some (batches, n) ∧
        ds.ping_times = batches.map Batch.ts ∧
        ds.ping_counts = batches.map Batch.count := by
  have hnone : processX P nav d = none := (processX_none_iff P nav d).mpr hgap
  have hloop : streamLoop P nav (pre ++ Record.xDatagram d :: post)
      = Option.map (fun r => (r.1, r.2 + 1)) (streamLoop P nav (pre ++ post)) := by
    induction pre with
    | nil =>
      simp only [List.nil_append, streamLoop]
      cases hs : streamLoop P nav post with
      | none => simp
      | some r => obtain ⟨bs, n⟩ := r; simp [hnone]
    | cons r pre ih =>
      cases r with
      | corruptDatagram => simp [streamLoop]
      | otherDatagram => simpa [streamLoop] using ih
      | xDatagram d' =>
        simp only [List.cons_append, streamLoop, List.append_eq]
        rw [ih]
        cases hs : streamLoop P nav (pre ++ post) with
        | none => simp
        | some r0 =>
          obtain ⟨bs, n⟩ := r0
          cases hp : processX P nav d' <;> simp [hp]
  refine ⟨hloop, ?_⟩
  intro ds hds
  obtain ⟨batches, n, hs, hne, hn0, hfin⟩ := run_dataset_inv P nav _ ds hds
  rw [hloop] at hs
  cases hs0 : streamLoop P nav (pre ++ post) with
  | none => rw [hs0] at hs; simp at hs
  | some r0 =>
    obtain ⟨bs0, m⟩ := r0
    rw [hs0] at hs
    simp at hs
    obtain ⟨hb, -⟩ := hs
    exact ⟨bs0, m, rfl, by simp [hfin, finalize, hb], by simp [hfin, finalize, hb]⟩

/-- Claim C4, witness: a concrete file with one ping outside the navigation
domain (t = 100, domain [0, 0]) followed by one processed ping. -/
theorem C4_witness :
    streamLoop testPrims [⟨0, 1, 2⟩]
        ([] ++ Record.xDatagram ⟨100, 0, 9, [7], [8], [9], [10]⟩ ::
          [Record.xDatagram ⟨0, 0, 7, [3], [4], [5], [6]⟩])
      = Option.map (fun r => (r.1, r.2 + 1))
          (streamLoop testPrims [⟨0, 1, 2⟩]
            ([] ++ [Record.xDatagram ⟨0, 0, 7, [3], [4], [5], [6]⟩])) ∧
    ∀ ds, (read_em122_wgs84 testPrims [⟨0, 1, 2⟩]
        ([] ++ Record.xDatagram ⟨100, 0, 9, [7], [8], [9], [10]⟩ ::
          [Record.xDatagram ⟨0, 0, 7, [3], [4], [5], [6]⟩])).result
        = RunResult.dataset ds →
      ∃ batches n, streamLoop testPrims [⟨0, 1, 2⟩]
          ([] ++ [Record.xDatagram ⟨0, 0, 7, [3], [4], [5], [6]⟩])
            = some (batches, n) ∧
        ds.ping_times = batches.map Batch.ts ∧
        ds.ping_counts = batches.map Batch.count :=
  C4_nav_gap_skips_ping testPrims [⟨0, 1, 2⟩] []
    [Record.xDatagram ⟨0, 0, 7, [3], [4], [5], [6]⟩]
    ⟨100, 0, 9, [7], [8], [9], [10]⟩ (by decide)

/-- The start offset of ping `k` is the sum of the beam counts of the
pings before it. -/
theorem dataset_starts_getD (batches : List Batch) (k : ℕ)
    (hk : k < batches.length) :
    (finalize batches).ping_starts.getD k 0
      = ((batches.map Batch.count).take k).sum := by
  simp only [finalize]
  exact pingStarts_getD _ k (by simpa using hk)

/-- Generic layout fact about finalization: for any of the five per-ping
array selectors, beam `i` of ping `k` sits at flat index
`(sum of the first k counts) + i`. -/
theorem flat_field_layout (batches : List Batch) (f : Batch → List ℚ)
    (hf : ∀ b ∈ batches, (f b).length = b.count)
    (k : ℕ) (hk : k < batches.length) (i : ℕ) (hi : i < batches[k].count) :
    ((batches.map f).flatten).getD
        (((batches.map Batch.count).take k).sum + i) 0
      = (f batches[k]).getD i 0 := by
  have hcl : (batches.map f).map List.length = batches.map Batch.count := by
    rw [List.map_map]
    exact List.map_congr_left fun b hb => hf b hb
  have hk' : k < (batches.map f).length := by simpa using hk
  have hi' : i < (batches.map f)[k].length := by
    rw [List.getElem_map, hf batches[k] (List.getElem_mem hk)]
    exact hi
  have hix := flatten_getD (batches.map f) k hk' i hi' 0
  rw [hcl] at hix
  rw [hix, List.getElem_map]

/-- Claim C5: the flattened arrays are the concatenation of the per-ping
batches in ping-arrival order with beam order preserved: for every
processed ping `k` and beam `i`, the `k`-th batch's `i`-th entry occupies
flat index `ping_starts[k] + i` of each of the five flat arrays. -/
theorem C5_flat_layout (P : Prims) (nav : List NavFix) (recs : List Record)
    (hlen : ∀ d : XDatagram, Record.xDatagram d ∈ recs →
      d.acrosstrackdistance.length = d.depth.length ∧
      d.alongtrackdistance.length = d.depth.length ∧
      d.reflectivity.length = d.depth.length)
    (ds : SoundingDataset)
    (h : (read_em122_wgs84 P nav recs).result = RunResult.dataset ds)
    (batches : List Batch) (n : ℕ)
    (hs : streamLoop P nav recs = some (batches, n))
    (k : ℕ) (hk : k < batches.length) (i : ℕ) (hi : i < batches[k].count) :
    ds.lat.getD (ds.ping_starts.getD k 0 + i) 0 = batches[k].lat.getD i 0 ∧
    ds.lon.getD (ds.ping_starts.getD k 0 + i) 0 = batches[k].lon.getD i 0 ∧
    ds.z.getD (ds.ping_starts.getD k 0 + i) 0 = batches[k].z.getD i 0 ∧
    ds.bs.getD (ds.ping_starts.getD k 0 + i) 0 = batches[k].bs.getD i 0 ∧
    ds.ang.getD (ds.ping_starts.getD k 0 + i) 0 = batches[k].ang.getD i 0 := by
  obtain ⟨batches', n', hs', hne, hn0, hds⟩ := run_dataset_inv P nav recs ds h
  rw [hs] at hs'
  have hbn : batches = batches' ∧ n = n' := by simpa using hs'
  obtain ⟨hb, -⟩ := hbn
  subst hb
  subst hds
  have hlens : ∀ b ∈ batches, b.lat.length = b.count ∧ b.lon.length = b.count ∧
      b.z.length = b.count ∧ b.bs.length = b.count ∧ b.ang.length = b.count := by
    intro b hb
    obtain ⟨d, hd, hp⟩ := mem_batches_source P nav recs batches n hs b hb
    exact processX_some_lengths P nav d b hp (hlen d hd).1 (hlen d hd).2.2
  rw [dataset_starts_getD batches k hk]
  refine ⟨?_, ?_, ?_, ?_, ?_⟩
  · simpa [finalize] using
      flat_field_layout batches Batch.lat (fun b hb => (hlens b hb).1) k hk i hi
  · simpa [finalize] using
      flat_field_layout batches Batch.lon (fun b hb => (hlens b hb).2.1) k hk i hi
  · simpa [finalize] using
      flat_field_layout batches Batch.z (fun b hb => (hlens b hb).2.2.1) k hk i hi
  · simpa [finalize] using
      flat_field_layout batches Batch.bs (fun b hb => (hlens b hb).2.2.2.1) k hk i hi
  · simpa [finalize] using
      flat_field_layout batches Batch.ang (fun b hb => (hlens b hb).2.2.2.2) k hk i hi

/-- Claim C5, witness: the layout fact evaluated at ping 1, beam 1 of a
concrete two-ping run. -/
theorem C5_witness :
    ((finalize [⟨[4], [3], [5], [6], [3], 1, 0⟩,
        ⟨[40, 41], [30, 31], [50, 51], [60, 61], [30, 31], 2, 0⟩]).lat.getD
      ((finalize [⟨[4], [3], [5], [6], [3], 1, 0⟩,
        ⟨[40, 41], [30, 31], [50, 51], [60, 61], [30, 31], 2, 0⟩]).ping_starts.getD 1 0 + 1) 0
        = (([⟨[4], [3], [5], [6], [3], 1, 0⟩,
            ⟨[40, 41], [30, 31], [50, 51], [60, 61], [30, 31], 2, 0⟩] : List Batch)[1]).lat.getD 1 0) ∧
    ((finalize [⟨[4], [3], [5], [6], [3], 1, 0⟩,
        ⟨[40, 41], [30, 31], [50, 51], [60, 61], [30, 31], 2, 0⟩]).lon.getD
      ((finalize [⟨[4], [3], [5], [6], [3], 1, 0⟩,
        ⟨[40, 41], [30, 31], [50, 51], [60, 61], [30, 31], 2, 0⟩]).ping_starts.getD 1 0 + 1) 0
        = (([⟨[4], [3], [5], [6], [3], 1, 0⟩,
            ⟨[40, 41], [30, 31], [50, 51], [60, 61], [30, 31], 2, 0⟩] : List Batch)[1]).lon.getD 1 0) ∧
    ((finalize [⟨[4], [3], [5], [6], [3], 1, 0⟩,
        ⟨[40, 41], [30, 31], [50, 51], [60, 61], [30, 31], 2, 0⟩]).z.getD
      ((finalize [⟨[4], [3], [5], [6], [3], 1, 0⟩,
        ⟨[40, 41], [30, 31], [50, 51], [60, 61], [30, 31], 2, 0⟩]).ping_starts.getD 1 0 + 1) 0
        = (([⟨[4], [3], [5], [6], [3], 1, 0⟩,
            ⟨[40, 41], [30, 31], [50, 51], [60, 61], [30, 31], 2, 0⟩] : List Batch)[1]).z.getD 1 0) ∧
    ((finalize [⟨[4], [3], [5], [6], [3], 1, 0⟩,
        ⟨[40, 41], [30, 31], [50, 51], [60, 61], [30, 31], 2, 0⟩]).bs.getD
      ((finalize [⟨[4], [3], [5], [6], [3], 1, 0⟩,
        ⟨[40, 41], [30, 31], [50, 51], [60, 61], [30, 31], 2, 0⟩]).ping_starts.getD 1 0 + 1) 0
        = (([⟨[4], [3], [5], [6], [3], 1, 0⟩,
            ⟨[40, 41], [30, 31], [50, 51], [60, 61], [30, 31], 2, 0⟩] : List Batch)[1]).bs.getD 1 0) ∧
    ((finalize [⟨[4], [3], [5], [6], [3], 1, 0⟩,
        ⟨[40, 41], [30, 31], [50, 51], [60, 61], [30, 31], 2, 0⟩]).ang.getD
      ((finalize [⟨[4], [3], [5], [6], [3], 1, 0⟩,
        ⟨[40, 41], [30, 31], [50, 51], [60, 61], [30, 31], 2, 0⟩]).ping_starts.getD 1 0 + 1) 0
        = (([⟨[4], [3], [5], [6], [3], 1, 0⟩,
            ⟨[40, 41], [30, 31], [50, 51], [60, 61], [30, 31], 2, 0⟩] : List Batch)[1]).ang.getD 1 0) :=
  C5_flat_layout testPrims [⟨0, 1, 2⟩]
    [Record.xDatagram ⟨0, 0, 7, [3], [4], [5], [6]⟩,
     Record.xDatagram ⟨0, 0, 8, [30, 31], [40, 41], [50, 51], [60, 61]⟩]
    (by
      intro d hd
      simp only [List.mem_cons, List.not_mem_nil, or_false,
        Record.xDatagram.injEq] at hd
      rcases hd with rfl | rfl <;> exact ⟨by decide, by decide, by decide⟩)
    _ (by decide)
    [⟨[4], [3], [5], [6], [3], 1, 0⟩,
     ⟨[40, 41], [30, 31], [50, 51], [60, 61], [30, 31], 2, 0⟩] 2
    (by decide) 1 (by decide) 1 (by decide)

/-- Claim C6: for every successfully processed ping and beam `i`, the
emitted beam angle is the `degrees(arctan2 ...)` composite applied to
(across-track distance, vertical depth) — depth, not slant range — and
this value is carried unmodified into the dataset's flat angle array at
that ping's slot. -/
theorem C6_beam_angle (P : Prims) (nav : List NavFix) (recs : List Record)
    (hlen : ∀ d : XDatagram, Record.xDatagram d ∈ recs →
      d.acrosstrackdistance.length = d.depth.length ∧
      d.alongtrackdistance.length = d.depth.length ∧
      d.reflectivity.length = d.depth.length)
    (ds : SoundingDataset)
    (h : (read_em122_wgs84 P nav recs).result = RunResult.dataset ds)
    (batches : List Batch) (n : ℕ)
    (hs : streamLoop P nav recs = some (batches, n))
    (k : ℕ) (hk : k < batches.length) (i : ℕ) (hi : i < batches[k].count) :
    ∃ d, Record.xDatagram d ∈ recs ∧ processX P nav d = some batches[k] ∧
      batches[k].ang.getD i 0
        = P.atan2degrees (d.acrosstrackdistance.getD i 0) (d.depth.getD i 0) ∧
      ds.ang.getD (ds.ping_starts.getD k 0 + i) 0
        = P.atan2degrees (d.acrosstrackdistance.getD i 0) (d.depth.getD i 0) := by
  obtain ⟨d, hd, hp⟩ := mem_batches_source P nav recs batches n hs batches[k]
    (List.getElem_mem hk)
  obtain ⟨rlat, rlon, -, -, -, -, -, -, hang, hcount, -⟩ :=
    processX_some_spec P nav d batches[k] hp
  have ha := (hlen d hd).1
  have hiz : i < d.depth.length := hcount ▸ hi
  have hia : i < d.acrosstrackdistance.length := by rw [ha]; exact hiz
  have hzip : i < (d.acrosstrackdistance.zip d.depth).length := by
    simpa [List.length_zip, ha] using hiz
  have hmap : i < ((d.acrosstrackdistance.zip d.depth).map
      (fun p => P.atan2degrees p.1 p.2)).length := by simpa using hzip
  have hval : batches[k].ang.getD i 0
      = P.atan2degrees (d.acrosstrackdistance.getD i 0) (d.depth.getD i 0) := by
    rw [hang, List.getD_eq_getElem _ _ hmap,
      List.getD_eq_getElem _ _ hia, List.getD_eq_getElem _ _ hiz,
      List.getElem_map, List.getElem_zip]
  refine ⟨d, hd, hp, hval, ?_⟩
  obtain ⟨batches', n', hs', hne, hn0, hds⟩ := run_dataset_inv P nav recs ds h
  rw [hs] at hs'
  have hbn : batches = batches' ∧ n = n' := by simpa using hs'
  obtain ⟨hb, -⟩ := hbn
  subst hb
  subst hds
  have hlens : ∀ b ∈ batches, b.ang.length = b.count := by
    intro b hb
    obtain ⟨d', hd', hp'⟩ := mem_batches_source P nav recs batches n hs b hb
    exact (processX_some_lengths P nav d' b hp'
      (hlen d' hd').1 (hlen d' hd').2.2).2.2.2.2
  rw [dataset_starts_getD batches k hk, ← hval]
  simpa [finalize] using flat_field_layout batches Batch.ang hlens k hk i hi

/-- Claim C7: for every successfully processed ping and beam `i`, the beam's
absolute position is exactly the geodetic forward-positioning primitive
applied to (reference lon, reference lat, heading, dx = across-track i,
dy = along-track i), where the reference position is the pair of
navigation interpolants evaluated at the ping's resolved timestamp; the
returned (lon, lat) land unswapped in the dataset's lon/lat arrays. -/
theorem C7_beam_position (P : Prims) (nav : List NavFix) (recs : List Record)
    (hlen : ∀ d : XDatagram, Record.xDatagram d ∈ recs →
      d.acrosstrackdistance.length = d.depth.length ∧
      d.alongtrackdistance.length = d.depth.length ∧
      d.reflectivity.length = d.depth.length)
    (ds : SoundingDataset)
    (h : (read_em122_wgs84 P nav recs).result = RunResult.dataset ds)
    (batches : List Batch) (n : ℕ)
    (hs : streamLoop P nav recs = some (batches, n))
    (k : ℕ) (hk : k < batches.length) (i : ℕ) (hi : i < batches[k].count) :
    ∃ d rlat rlon, Record.xDatagram d ∈ recs ∧
      processX P nav d = some batches[k] ∧
      getValueAt (latSeries nav) (P.toTimestamp d.recorddate d.time)
        = some rlat ∧
      getValueAt (lonSeries nav) (P.toTimestamp d.recorddate d.time)
        = some rlon ∧
      ds.lon.getD (ds.ping_starts.getD k 0 + i) 0
        = (P.geodCalc rlon rlat d.heading (d.acrosstrackdistance.getD i 0)
            (d.alongtrackdistance.getD i 0)).1 ∧
      ds.lat.getD (ds.ping_starts.getD k 0 + i) 0
        = (P.geodCalc rlon rlat d.heading (d.acrosstrackdistance.getD i 0)
            (d.alongtrackdistance.getD i 0)).2 := by
  obtain ⟨d, hd, hp⟩ := mem_batches_source P nav recs batches n hs batches[k]
    (List.getElem_mem hk)
  obtain ⟨rlat, rlon, hglat, hglon, hblat, hblon, -, -, -, hcount, -⟩ :=
    processX_some_spec P nav d batches[k] hp
  have hiz : i < d.depth.length := hcount ▸ hi
  have hlat_val : batches[k].lat.getD i 0
      = (P.geodCalc rlon rlat d.heading (d.acrosstrackdistance.getD i 0)
          (d.alongtrackdistance.getD i 0)).2 := by
    have hm : i < (((List.range d.depth.length).map fun j =>
        P.geodCalc rlon rlat d.heading (d.acrosstrackdistance.getD j 0)
          (d.alongtrackdistance.getD j 0)).map Prod.snd).length := by
      simpa using hiz
    rw [hblat, List.getD_eq_getElem _ _ hm, List.getElem_map, List.getElem_map,
      List.getElem_range]
  have hlon_val : batches[k].lon.getD i 0
      = (P.geodCalc rlon rlat d.heading (d.acrosstrackdistance.getD i 0)
          (d.alongtrackdistance.getD i 0)).1 := by
    have hm : i < (((List.range d.depth.length).map fun j =>
        P.geodCalc rlon rlat d.heading (d.acrosstrackdistance.getD j 0)
          (d.alongtrackdistance.getD j 0)).map Prod.fst).length := by
      simpa using hiz
    rw [hblon, List.getD_eq_getElem _ _ hm, List.getElem_map, List.getElem_map,
      List.getElem_range]
  refine ⟨d, rlat, rlon, hd, hp, hglat, hglon, ?_, ?_⟩
  all_goals
    obtain ⟨batches', n', hs', hne, hn0, hds⟩ := run_dataset_inv P nav recs ds h
  all_goals
    rw [hs] at hs'
  all_goals
    have hbn : batches = batches' ∧ n = n' := by simpa using hs'
  all_goals
    obtain ⟨hb, -⟩ := hbn
  all_goals
    subst hb
  all_goals
    subst hds
  all_goals
    have hlens : ∀ b ∈ batches, b.lat.length = b.count ∧
        b.lon.length = b.count := by
      intro b hb
      obtain ⟨d', hd', hp'⟩ := mem_batches_source P nav recs batches n hs b hb
      have hl := processX_some_lengths P nav d' b hp'
        (hlen d' hd').1 (hlen d' hd').2.2
      exact ⟨hl.1, hl.2.1⟩
  · rw [dataset_starts_getD batches k hk, ← hlon_val]
    simpa [finalize] using
      flat_field_layout batches Batch.lon (fun b hb => (hlens b hb).2) k hk i hi
  · rw [dataset_starts_getD batches k hk, ← hlat_val]
    simpa [finalize] using
      flat_field_layout batches Batch.lat (fun b hb => (hlens b hb).1) k hk i hi

/-- Claim C6, witness: the angle formula evaluated at ping 1, beam 1 of a
concrete two-ping run. -/
theorem C6_witness :
    ∃ d, Record.xDatagram d ∈
        [Record.xDatagram ⟨0, 0, 7, [3], [4], [5], [6]⟩,
         Record.xDatagram ⟨0, 0, 8, [30, 31], [40, 41], [50, 51], [60, 61]⟩] ∧
      processX testPrims [⟨0, 1, 2⟩] d
        = some (([⟨[4], [3], [5], [6], [3], 1, 0⟩,
            ⟨[40, 41], [30, 31], [50, 51], [60, 61], [30, 31], 2, 0⟩] :
              List Batch)[1]) ∧
      (([⟨[4], [3], [5], [6], [3], 1, 0⟩,
          ⟨[40, 41], [30, 31], [50, 51], [60, 61], [30, 31], 2, 0⟩] :
            List Batch)[1]).ang.getD 1 0
        = testPrims.atan2degrees (d.acrosstrackdistance.getD 1 0)
            (d.depth.getD 1 0) ∧
      (finalize [⟨[4], [3], [5], [6], [3], 1, 0⟩,
          ⟨[40, 41], [30, 31], [50, 51], [60, 61], [30, 31], 2, 0⟩]).ang.getD
        ((finalize [⟨[4], [3], [5], [6], [3], 1, 0⟩,
          ⟨[40, 41], [30, 31], [50, 51], [60, 61], [30, 31], 2, 0⟩]).ping_starts.getD 1 0 + 1) 0
        = testPrims.atan2degrees (d.acrosstrackdistance.getD 1 0)
            (d.depth.getD 1 0) :=
  C6_beam_angle testPrims [⟨0, 1, 2⟩]
    [Record.xDatagram ⟨0, 0, 7, [3], [4], [5], [6]⟩,
     Record.xDatagram ⟨0, 0, 8, [30, 31], [40, 41], [50, 51], [60, 61]⟩]
    (by
      intro d hd
      simp only [List.mem_cons, List.not_mem_nil, or_false,
        Record.xDatagram.injEq] at hd
      rcases hd with rfl | rfl <;> exact ⟨by decide, by decide, by decide⟩)
    _ (by decide)
    [⟨[4], [3], [5], [6], [3], 1, 0⟩,
     ⟨[40, 41], [30, 31], [50, 51], [60, 61], [30, 31], 2, 0⟩] 2
    (by decide) 1 (by decide) 1 (by decide)

/-- Claim C7, witness: the positioning call evaluated at ping 1, beam 1 of
a concrete two-ping run. -/
theorem C7_witness :
    ∃ d rlat rlon, Record.xDatagram d ∈
        [Record.xDatagram ⟨0, 0, 7, [3], [4], [5], [6]⟩,
         Record.xDatagram ⟨0, 0, 8, [30, 31], [40, 41], [50, 51], [60, 61]⟩] ∧
      processX testPrims [⟨0, 1, 2⟩] d
        = some (([⟨[4], [3], [5], [6], [3], 1, 0⟩,
            ⟨[40, 41], [30, 31], [50, 51], [60, 61], [30, 31], 2, 0⟩] :
              List Batch)[1]) ∧
      getValueAt (latSeries [⟨0, 1, 2⟩])
        (testPrims.toTimestamp d.recorddate d.time) = some rlat ∧
      getValueAt (lonSeries [⟨0, 1, 2⟩])
        (testPrims.toTimestamp d.recorddate d.time) = some rlon ∧
      (finalize [⟨[4], [3], [5], [6], [3], 1, 0⟩,
          ⟨[40, 41], [30, 31], [50, 51], [60, 61], [30, 31], 2, 0⟩]).lon.getD
        ((finalize [⟨[4], [3], [5], [6], [3], 1, 0⟩,
          ⟨[40, 41], [30, 31], [50, 51], [60, 61], [30, 31], 2, 0⟩]).ping_starts.getD 1 0 + 1) 0
        = (testPrims.geodCalc rlon rlat d.heading
            (d.acrosstrackdistance.getD 1 0) (d.alongtrackdistance.getD 1 0)).1 ∧
      (finalize [⟨[4], [3], [5], [6], [3], 1, 0⟩,
          ⟨[40, 41], [30, 31], [50, 51], [60, 61], [30, 31], 2, 0⟩]).lat.getD
        ((finalize [⟨[4], [3], [5], [6], [3], 1, 0⟩,
          ⟨[40, 41], [30, 31], [50, 51], [60, 61], [30, 31], 2, 0⟩]).ping_starts.getD 1 0 + 1) 0
        = (testPrims.geodCalc rlon rlat d.heading
            (d.acrosstrackdistance.getD 1 0) (d.alongtrackdistance.getD 1 0)).2 :=
  C7_beam_position testPrims [⟨0, 1, 2⟩]
    [Record.xDatagram ⟨0, 0, 7, [3], [4], [5], [6]⟩,
     Record.xDatagram ⟨0, 0, 8, [30, 31], [40, 41], [50, 51], [60, 61]⟩]
    (by
      intro d hd
      simp only [List.mem_cons, List.not_mem_nil, or_false,
        Record.xDatagram.injEq] at hd
      rcases hd with rfl | rfl <;> exact ⟨by decide, by decide, by decide⟩)
    _ (by decide)
    [⟨[4], [3], [5], [6], [3], 1, 0⟩,
     ⟨[40, 41], [30, 31], [50, 51], [60, 61], [30, 31], 2, 0⟩] 2
    (by decide) 1 (by decide) 1 (by decide)
